import Mathlib

/-!
Verification of the Token22 vanity-address search engine.

We shallow-embed the CPU search path of `src/main.rs` / `src/lib.rs`:

* `matches_pattern` is the pure pattern predicate (function `matches_pattern`
  in the source, identical in both files).
* `search_batch` is one invocation of the CPU search backend.  The source
  generates `BATCH_SIZE` random seeds, derives an address for each seed with
  `Pubkey::create_with_seed` (an external SDK function, modelled here by an
  arbitrary fallible derivation function `derive`), parallel-collects the
  surviving `(seed, address)` pairs in generation order (the rayon
  `par_extend` / `filter_map` combination preserves the order of the source
  iterator), adds `BATCH_SIZE` to `stats.attempts`, and then scans the pairs
  sequentially for the first pattern match.  The random batch is modelled as
  an explicit list of seed strings; the shared atomic statistics block is
  modelled by explicit state passing, matching the sequential way the
  coordinator of the program invokes the backend.
* `run_batches` / `search_loop` model repeated invocations of `search_batch`
  against one statistics block, as performed by the coordinator loop.
* `find_vanity_address` is the coordinator entry point of `src/lib.rs`:
  eager validation of the `position` argument, then the search loop.
* `result_block` is the machine-readable `RESULT_START` / `RESULT_END` block
  printed by `main` in `src/main.rs` (and identically by
  `find_vanity_address` in `src/lib.rs`).
-/

/-- Structure `SearchStats` from the source: an attempt counter
(`AtomicU64`) and a `found` flag (`AtomicBool`), shared by all invocations
of one run.  The 64-bit counter is represented as a natural number; the
wrap-around of the `fetch_add` of the source is made explicit in
`search_batch` by reducing the updated counter modulo `U64_MOD`. -/
structure SearchStats where
  attempts : Nat
  found : Bool
deriving Repr, DecidableEq

/-- Constructor `SearchStats::new()` from the source: zeroed statistics
block. -/
def SearchStats.new : SearchStats := ⟨0, false⟩

/-- Constant `BATCH_SIZE` from the source. -/
def BATCH_SIZE : Nat := 1000000

/-- Constant: the modulus of the 64-bit attempt counter; the `fetch_add`
of the source is a wrapping add modulo this value. -/
def U64_MOD : Nat := 2 ^ 64

/-- Function modelling Rust `str::to_lowercase`, restricted to the domain
alphabet of the program (base58 text, ASCII only, where Rust lowercasing
agrees with per-character ASCII folding). -/
def to_lowercase (s : String) : String := ⟨s.data.map Char.toLower⟩

/-- Function modelling Rust `str::starts_with` for a string pattern: the
characters of the pattern form a prefix of the characters of the string. -/
def starts_with (s p : String) : Bool := p.data.isPrefixOf s.data

/-- Function modelling Rust `str::ends_with` for a string pattern: the
characters of the pattern form a suffix of the characters of the string. -/
def ends_with (s p : String) : Bool := p.data.isSuffixOf s.data

/-- Function `matches_pattern` from the source: lower-case both operands
when `case_insensitive` is set, then dispatch on the `position` string;
`"start"` means starts-with, `"end"` means ends-with, anything else is
no-match. -/
def matches_pattern (address pattern : String) (case_insensitive : Bool)
    (position : String) : Bool :=
  let a := if case_insensitive then to_lowercase address else address
  let p := if case_insensitive then to_lowercase pattern else pattern
  if position = "start" then starts_with a p
  else if position = "end" then ends_with a p
  else false

section Search

variable {α : Type}

/-- Definition of the `(seed, address)` pairs collected by the `par_extend`
step of `search_batch`: each seed is passed to the derivation function
(`Pubkey::create_with_seed` closed over the base key and
`TOKEN_PROGRAM_ID`); seeds the derivation rejects are dropped
(`filter_map`), and rayon preserves the generation order of the seeds. -/
def candidates (derive : String → Option α) (seeds : List String) :
    List (String × α) :=
  seeds.filterMap (fun s => (derive s).map (fun a => (s, a)))

/-- Function `search_batch` from the source, for one already-generated
batch of seeds.  The parameter `derive` models
`Pubkey::create_with_seed(&base.pubkey(), seed, &TOKEN_PROGRAM_ID)`; `text`
models `Pubkey::to_string()` (base58 rendering).  Fast-path exit when
`stats.found` is already set; otherwise derive all candidates, perform the
wrapping 64-bit add of `BATCH_SIZE` on the attempt counter, and scan
sequentially for the first pattern match, setting `found` on a hit. -/
def search_batch (derive : String → Option α) (text : α → String)
    (pattern position : String) (case_insensitive : Bool)
    (seeds : List String) (stats : SearchStats) :
    Option (String × α) × SearchStats :=
  if stats.found then (none, stats)
  else
    let addresses := candidates derive seeds
    let stats1 : SearchStats := ⟨(stats.attempts + BATCH_SIZE) % U64_MOD, stats.found⟩
    match addresses.find?
        (fun sa => matches_pattern (text sa.2) pattern case_insensitive position) with
    | some sa => (some sa, ⟨stats1.attempts, true⟩)
    | none => (none, stats1)

/-- Definition modelling N successive invocations of `search_batch` against
one statistics block, recording what each invocation returned. -/
def run_batches (derive : String → Option α) (text : α → String)
    (pattern position : String) (case_insensitive : Bool) :
    List (List String) → SearchStats → List (Option (String × α)) × SearchStats
  | [], stats => ([], stats)
  | b :: bs, stats =>
    let r := search_batch derive text pattern position case_insensitive b stats
    let rest := run_batches derive text pattern position case_insensitive bs r.2
    (r.1 :: rest.1, rest.2)

/-- Definition modelling the main search loop of the coordinator: invoke
`search_batch` on successive batches until one returns a match (the source
loops forever; here the stream of random batches is a finite list, and the
loop result is `none` when the stream is exhausted first). -/
def search_loop (derive : String → Option α) (text : α → String)
    (pattern position : String) (case_insensitive : Bool) :
    List (List String) → SearchStats → Option (String × α) × SearchStats
  | [], stats => (none, stats)
  | b :: bs, stats =>
    match search_batch derive text pattern position case_insensitive b stats with
    | (some sa, stats1) => (some sa, stats1)
    | (none, stats1) => search_loop derive text pattern position case_insensitive bs stats1

/-- Error message of the eager `position` validation in the source; the
original text quotes the words start and end in single quotation marks,
written here with the unicode escape for that character. -/
def invalid_position_error : String :=
  "Position must be either \u0027start\u0027 or \u0027end\u0027"

/-- Function `find_vanity_address` from `src/lib.rs` (the `position`
validation is identical in `main` of `src/main.rs`): reject any `position`
other than `"start"` / `"end"` with the invalid-argument error before the
base key is generated or any search work begins; otherwise run the search
loop on a fresh statistics block. -/
def find_vanity_address (derive : String → Option α) (text : α → String)
    (pattern position : String) (case_insensitive : Bool)
    (batches : List (List String)) :
    Except String (Option (String × α) × SearchStats) :=
  if position ≠ "start" ∧ position ≠ "end" then
    Except.error invalid_position_error
  else
    Except.ok (search_loop derive text pattern position case_insensitive batches
      SearchStats.new)

end Search

/-- Definition of the JSON keys of the machine-readable result block, in
the order the source prints them (the five field lines between the
RESULT_START and RESULT_END marker lines in `main.rs` and `lib.rs`). -/
def result_keys : List String :=
  ["base_pubkey", "seed", "token_address", "time_taken", "attempts"]

/-- Definition of the machine-readable result block emitted by the source
when a match is found, one printed line per list entry: the marker lines
and a JSON object with the base public key, the winning seed, the derived
token address, the elapsed seconds and the attempt count, in this order.
The numeric renderings of the elapsed time (f64) and of the attempt count
(u64) are abstracted as strings. -/
def result_block (base_pubkey seed token_address time_taken attempts : String) :
    List String :=
  ["RESULT_START",
   "\x7b",
   "  \"base_pubkey\": \"" ++ base_pubkey ++ "\",",
   "  \"seed\": \"" ++ seed ++ "\",",
   "  \"token_address\": \"" ++ token_address ++ "\",",
   "  \"time_taken\": " ++ time_taken ++ ",",
   "  \"attempts\": " ++ attempts,
   "\x7d",
   "RESULT_END"]

/-- Definition following the words of the specification (not the source),
for comparison with `result_keys`: the field names the specification gives
for the result record. -/
def spec_result_keys : List String :=
  ["basePublicKey", "seed", "derivedAddress", "elapsedSeconds", "attempts"]

section SearchLemmas

variable {α : Type} (d : String → Option α) (t : α → String)
variable (pat pos : String) (ci : Bool)

theorem u64_mod_pos : 0 < U64_MOD := by norm_num [U64_MOD]

theorem search_batch_of_found {stats : SearchStats} (h : stats.found = true)
    (seeds : List String) :
    search_batch d t pat pos ci seeds stats = (none, stats) := by
  simp [search_batch, h]

theorem search_batch_some_of_match {stats : SearchStats} (h : stats.found = false)
    {seeds : List String} {sa : String × α}
    (hm : (candidates d seeds).find?
      (fun sa => matches_pattern (t sa.2) pat ci pos) = some sa) :
    search_batch d t pat pos ci seeds stats =
      (some sa, ⟨(stats.attempts + BATCH_SIZE) % U64_MOD, true⟩) := by
  simp [search_batch, h, hm]

theorem search_batch_none_of_no_match {stats : SearchStats} (h : stats.found = false)
    {seeds : List String}
    (hm : (candidates d seeds).find?
      (fun sa => matches_pattern (t sa.2) pat ci pos) = none) :
    search_batch d t pat pos ci seeds stats =
      (none, ⟨(stats.attempts + BATCH_SIZE) % U64_MOD, false⟩) := by
  simp [search_batch, h, hm]

theorem search_batch_cases (stats : SearchStats) (seeds : List String) :
    (stats.found = true ∧ search_batch d t pat pos ci seeds stats = (none, stats))
    ∨ (stats.found = false ∧
        ∃ sa, (candidates d seeds).find?
            (fun sb => matches_pattern (t sb.2) pat ci pos) = some sa ∧
          search_batch d t pat pos ci seeds stats =
            (some sa, ⟨(stats.attempts + BATCH_SIZE) % U64_MOD, true⟩))
    ∨ (stats.found = false ∧
        (candidates d seeds).find?
            (fun sb => matches_pattern (t sb.2) pat ci pos) = none ∧
        search_batch d t pat pos ci seeds stats =
          (none, ⟨(stats.attempts + BATCH_SIZE) % U64_MOD, false⟩)) := by
  cases hf : stats.found with
  | true => exact Or.inl ⟨rfl, search_batch_of_found d t pat pos ci hf seeds⟩
  | false =>
    cases hm : (candidates d seeds).find?
        (fun sb => matches_pattern (t sb.2) pat ci pos) with
    | some sa =>
      exact Or.inr (Or.inl ⟨rfl, sa, rfl,
        search_batch_some_of_match d t pat pos ci hf hm⟩)
    | none =>
      exact Or.inr (Or.inr ⟨rfl, rfl,
        search_batch_none_of_no_match d t pat pos ci hf hm⟩)

theorem search_batch_found_mono {stats : SearchStats} (h : stats.found = true)
    (seeds : List String) :
    (search_batch d t pat pos ci seeds stats).2.found = true := by
  rw [search_batch_of_found d t pat pos ci h seeds]; exact h

theorem search_batch_found_of_some {stats : SearchStats} {seeds : List String}
    {sa : String × α}
    (h : (search_batch d t pat pos ci seeds stats).1 = some sa) :
    (search_batch d t pat pos ci seeds stats).2.found = true := by
  cases hf : stats.found with
  | true => rw [search_batch_of_found d t pat pos ci hf seeds] at h; simp at h
  | false =>
    cases hm : (candidates d seeds).find?
        (fun sb => matches_pattern (t sb.2) pat ci pos) with
    | some sb => rw [search_batch_some_of_match d t pat pos ci hf hm]
    | none =>
      rw [search_batch_none_of_no_match d t pat pos ci hf hm] at h; simp at h

theorem search_batch_attempts_of_not_found {stats : SearchStats}
    (h : stats.found = false) (seeds : List String) :
    (search_batch d t pat pos ci seeds stats).2.attempts =
      (stats.attempts + BATCH_SIZE) % U64_MOD := by
  cases hm : (candidates d seeds).find?
      (fun sb => matches_pattern (t sb.2) pat ci pos) with
  | some sa => rw [search_batch_some_of_match d t pat pos ci h hm]
  | none => rw [search_batch_none_of_no_match d t pat pos ci h hm]

theorem search_batch_attempts_mono (stats : SearchStats) (seeds : List String)
    (hw : stats.attempts + BATCH_SIZE < U64_MOD) :
    stats.attempts ≤ (search_batch d t pat pos ci seeds stats).2.attempts := by
  cases hf : stats.found with
  | true => rw [search_batch_of_found d t pat pos ci hf seeds]
  | false =>
    rw [search_batch_attempts_of_not_found d t pat pos ci hf seeds,
      Nat.mod_eq_of_lt hw]
    exact Nat.le_add_right _ _

end SearchLemmas

section RunLemmas

variable {α β : Type} (d : String → Option α) (t : α → String)
variable (pat pos : String) (ci : Bool)

theorem countP_isSome_replicate_none (n : Nat) :
    (List.replicate n (none : Option β)).countP (fun r => r.isSome) = 0 :=
  List.countP_eq_zero.mpr (fun a ha => by
    rw [List.eq_of_mem_replicate ha]; simp)

theorem run_batches_of_found {stats : SearchStats} (h : stats.found = true)
    (bs : List (List String)) :
    run_batches d t pat pos ci bs stats = (List.replicate bs.length none, stats) := by
  induction bs with
  | nil => simp [run_batches]
  | cons b bs ih =>
    simp [run_batches, search_batch_of_found d t pat pos ci h b, ih,
      List.replicate_succ]

theorem run_batches_found_mono {stats : SearchStats} (h : stats.found = true)
    (bs : List (List String)) :
    (run_batches d t pat pos ci bs stats).2.found = true := by
  rw [run_batches_of_found d t pat pos ci h bs]; exact h

theorem run_batches_countP {stats : SearchStats} (h : stats.found = false)
    (bs : List (List String)) :
    ((run_batches d t pat pos ci bs stats).1.countP (fun r => r.isSome)) ≤ 1 := by
  induction bs generalizing stats with
  | nil => simp [run_batches]
  | cons b bs ih =>
    simp only [run_batches]
    cases hm : (candidates d b).find?
        (fun sb => matches_pattern (t sb.2) pat ci pos) with
    | some sa =>
      rw [search_batch_some_of_match d t pat pos ci h hm,
        run_batches_of_found d t pat pos ci rfl bs]
      simp [List.countP_cons, countP_isSome_replicate_none]
    | none =>
      rw [search_batch_none_of_no_match d t pat pos ci h hm]
      simpa [List.countP_cons] using
        @ih ⟨(stats.attempts + BATCH_SIZE) % U64_MOD, false⟩ rfl

theorem run_batches_attempts_no_match {bs : List (List String)}
    (hnm : ∀ b ∈ bs, ∀ sa ∈ candidates d b,
      matches_pattern (t sa.2) pat ci pos = false)
    {stats : SearchStats} (h : stats.found = false)
    (ha : stats.attempts < U64_MOD) :
    (run_batches d t pat pos ci bs stats).2 =
      ⟨(stats.attempts + bs.length * BATCH_SIZE) % U64_MOD, false⟩ := by
  induction bs generalizing stats with
  | nil =>
    obtain ⟨a, f⟩ := stats
    simp only [SearchStats.found] at h
    subst h
    simp [run_batches, Nat.mod_eq_of_lt ha]
  | cons b bs ih =>
    simp only [run_batches]
    have hm : (candidates d b).find?
        (fun sb => matches_pattern (t sb.2) pat ci pos) = none :=
      List.find?_eq_none.mpr (fun x hx => by
        simp [hnm b (by simp) x hx])
    rw [search_batch_none_of_no_match d t pat pos ci h hm]
    rw [ih (fun b2 hb2 => hnm b2 (by simp [hb2])) rfl
      (Nat.mod_lt _ u64_mod_pos)]
    simp only [List.length_cons, SearchStats.mk.injEq, and_true,
      Nat.mod_add_mod]
    congr 1
    ring

theorem run_batches_attempts_multiple (stats : SearchStats)
    (bs : List (List String)) (ha : stats.attempts < U64_MOD) :
    ∃ k, (run_batches d t pat pos ci bs stats).2.attempts =
      (stats.attempts + k * BATCH_SIZE) % U64_MOD := by
  induction bs generalizing stats with
  | nil => exact ⟨0, by simp [run_batches, Nat.mod_eq_of_lt ha]⟩
  | cons b bs ih =>
    simp only [run_batches]
    cases hf : stats.found with
    | true =>
      rw [search_batch_of_found d t pat pos ci hf b]
      exact ih stats ha
    | false =>
      cases hm : (candidates d b).find?
          (fun sb => matches_pattern (t sb.2) pat ci pos) with
      | some sa =>
        rw [search_batch_some_of_match d t pat pos ci hf hm]
        obtain ⟨k, hk⟩ := ih ⟨(stats.attempts + BATCH_SIZE) % U64_MOD, true⟩
          (Nat.mod_lt _ u64_mod_pos)
        exact ⟨k + 1, by rw [hk]; simp only [Nat.mod_add_mod]; congr 1; ring⟩
      | none =>
        rw [search_batch_none_of_no_match d t pat pos ci hf hm]
        obtain ⟨k, hk⟩ := ih ⟨(stats.attempts + BATCH_SIZE) % U64_MOD, false⟩
          (Nat.mod_lt _ u64_mod_pos)
        exact ⟨k + 1, by rw [hk]; simp only [Nat.mod_add_mod]; congr 1; ring⟩

theorem search_loop_attempts_multiple (stats : SearchStats)
    (bs : List (List String)) (ha : stats.attempts < U64_MOD) :
    ∃ k, (search_loop d t pat pos ci bs stats).2.attempts =
      (stats.attempts + k * BATCH_SIZE) % U64_MOD := by
  induction bs generalizing stats with
  | nil => exact ⟨0, by simp [search_loop, Nat.mod_eq_of_lt ha]⟩
  | cons b bs ih =>
    simp only [search_loop]
    rcases search_batch_cases d t pat pos ci stats b with
      ⟨hf, heq⟩ | ⟨hf, sa, hm, heq⟩ | ⟨hf, hm, heq⟩ <;> rw [heq]
    · exact ih stats ha
    · exact ⟨1, by simp⟩
    · obtain ⟨k, hk⟩ := ih ⟨(stats.attempts + BATCH_SIZE) % U64_MOD, false⟩
        (Nat.mod_lt _ u64_mod_pos)
      exact ⟨k + 1, by rw [hk]; simp only [Nat.mod_add_mod]; congr 1; ring⟩

theorem search_loop_attempts_no_match {bs : List (List String)}
    (hnm : ∀ b ∈ bs, ∀ sa ∈ candidates d b,
      matches_pattern (t sa.2) pat ci pos = false)
    {stats : SearchStats} (h : stats.found = false)
    (ha : stats.attempts < U64_MOD) :
    search_loop d t pat pos ci bs stats =
      (none, ⟨(stats.attempts + bs.length * BATCH_SIZE) % U64_MOD, false⟩) := by
  induction bs generalizing stats with
  | nil =>
    obtain ⟨a, f⟩ := stats
    simp only [SearchStats.found] at h
    subst h
    simp [search_loop, Nat.mod_eq_of_lt ha]
  | cons b bs ih =>
    simp only [search_loop]
    have hm : (candidates d b).find?
        (fun sb => matches_pattern (t sb.2) pat ci pos) = none :=
      List.find?_eq_none.mpr (fun x hx => by
        simp [hnm b (by simp) x hx])
    rw [search_batch_none_of_no_match d t pat pos ci h hm]
    show search_loop d t pat pos ci bs
        ⟨(stats.attempts + BATCH_SIZE) % U64_MOD, false⟩ =
      (none, ⟨(stats.attempts + (b :: bs).length * BATCH_SIZE) % U64_MOD, false⟩)
    rw [@ih (fun b2 hb2 => hnm b2 (by simp [hb2]))
      ⟨(stats.attempts + BATCH_SIZE) % U64_MOD, false⟩ rfl
      (Nat.mod_lt _ u64_mod_pos)]
    simp only [List.length_cons, Prod.mk.injEq, SearchStats.mk.injEq,
      true_and, and_true, Nat.mod_add_mod]
    congr 1
    ring

end RunLemmas

theorem candidates_mem {α : Type} {d : String → Option α} {seeds : List String}
    {sa : String × α} (h : sa ∈ candidates d seeds) : d sa.1 = some sa.2 := by
  simp only [candidates, List.mem_filterMap] at h
  obtain ⟨s, _, hmap⟩ := h
  obtain ⟨a, hd, hpair⟩ := Option.map_eq_some'.mp hmap
  cases hpair
  simpa using hd

theorem starts_with_append (s1 s2 p : String) (h : starts_with s1 p = true) :
    starts_with (s1 ++ s2) p = true := by
  simp only [starts_with, String.data_append] at h ⊢
  rw [ List.isPrefixOf_iff_prefix] at h ⊢
  exact h.trans (List.prefix_append _ _)

/-- C4: Pattern Matcher correctness.  For every address text and pattern:
with position start the matcher returns exactly starts-with, with position
end exactly ends-with; when the case-insensitive flag is set both operands
are lower-cased first; starts-with and ends-with coincide with the
character-list prefix and suffix relations; and the four concrete examples
of the specification hold. -/
theorem matches_pattern_correct (a p : String) :
    (matches_pattern a p false ("start") = starts_with a p)
    ∧ (matches_pattern a p false ("end") = ends_with a p)
    ∧ (matches_pattern a p true ("start")
        = starts_with (to_lowercase a) (to_lowercase p))
    ∧ (matches_pattern a p true ("end")
        = ends_with (to_lowercase a) (to_lowercase p))
    ∧ (starts_with a p = true ↔ p.data <+: a.data)
    ∧ (ends_with a p = true ↔ p.data <:+ a.data)
    ∧ matches_pattern ("hello") ("he") false ("start") = true
    ∧ matches_pattern ("hello") ("lo") false ("end") = true
    ∧ matches_pattern ("Hello") ("he") true ("start") = true
    ∧ matches_pattern ("hello") ("HE") false ("start") = false := by
  refine ⟨by simp [matches_pattern], by simp [matches_pattern],
    by simp [matches_pattern], by simp [matches_pattern],
    ?_, ?_, by decide, by decide, by decide, by decide⟩
  · show p.data.isPrefixOf a.data = true ↔ p.data <+: a.data
    exact List.isPrefixOf_iff_prefix
  · show p.data.isSuffixOf a.data = true ↔ p.data <:+ a.data
    exact List.isSuffixOf_iff_suffix

/-- C9: for any position string other than start and end, the matcher
itself falls through to no-match and returns false rather than raising an
error. -/
theorem matches_pattern_fallthrough (a p : String) (ci : Bool) (pos : String)
    (h1 : pos ≠ "start") (h2 : pos ≠ "end") :
    matches_pattern a p ci pos = false := by
  simp [matches_pattern, h1, h2]

theorem matches_pattern_fallthrough_witness :
    ("middle" : String) ≠ "start" ∧ ("middle" : String) ≠ "end"
    ∧ matches_pattern ("hello") ("he") false ("middle") = false :=
  ⟨by decide, by decide,
    matches_pattern_fallthrough ("hello") ("he") false ("middle")
      (by decide) (by decide)⟩

/-- C5: invalid position is rejected eagerly.  For every position string
other than the two recognized values, the coordinator returns the
invalid-argument error, and the outcome is the same whatever the
derivation function, the address rendering or the batch stream is — no
base key is consulted, no batch is generated and no search work (hence no
attempt counting) happens before the rejection. -/
theorem invalid_position_rejected {α : Type} (d : String → Option α)
    (t : α → String) (pat pos : String) (ci : Bool)
    (batches : List (List String))
    (h1 : pos ≠ "start") (h2 : pos ≠ "end") :
    find_vanity_address d t pat pos ci batches =
      Except.error invalid_position_error
    ∧ (∀ (d2 : String → Option α) (t2 : α → String) (pat2 : String)
        (ci2 : Bool) (batches2 : List (List String)),
        find_vanity_address d2 t2 pat2 pos ci2 batches2 =
          find_vanity_address d t pat pos ci batches) := by
  constructor
  · simp [find_vanity_address, h1, h2]
  · intro d2 t2 pat2 ci2 batches2
    simp [find_vanity_address, h1, h2]

theorem invalid_position_rejected_witness :
    ("middle" : String) ≠ "start" ∧ ("middle" : String) ≠ "end"
    ∧ find_vanity_address (fun s => some s) id ("a") ("middle") false [] =
        Except.error invalid_position_error :=
  ⟨by decide, by decide,
    (invalid_position_rejected (fun s => some s) id ("a") ("middle") false []
      (by decide) (by decide)).1⟩

/-- C7: a per-candidate derivation failure is recovered locally.  If the
derivation function rejects some seed of a batch, that candidate is
silently discarded and the invocation behaves exactly as on the same batch
with the offending seed removed: no error, no aborted batch, every
remaining candidate still derived and scanned, and the same attempt-count
update. -/
theorem derivation_failure_recovered {α : Type} (d : String → Option α)
    (t : α → String) (pat pos : String) (ci : Bool)
    (l1 l2 : List String) (bad : String) (hbad : d bad = none)
    (stats : SearchStats) :
    search_batch d t pat pos ci (l1 ++ bad :: l2) stats =
      search_batch d t pat pos ci (l1 ++ l2) stats := by
  have hc : candidates d (l1 ++ bad :: l2) = candidates d (l1 ++ l2) := by
    simp [candidates, List.filterMap_append, List.filterMap_cons, hbad]
  simp [search_batch, hc]

theorem derivation_failure_recovered_witness :
    (fun s => if s = ("ab") then none else some (String.length s)) ("ab") = none
    ∧ search_batch (fun s => if s = ("ab") then none else some (String.length s))
        (fun n => toString n) ("1") ("start") false (["x"] ++ ["ab"] ++ ["y"])
        SearchStats.new =
      search_batch (fun s => if s = ("ab") then none else some (String.length s))
        (fun n => toString n) ("1") ("start") false (["x"] ++ ["y"])
        SearchStats.new :=
  ⟨by decide,
    derivation_failure_recovered
      (fun s => if s = ("ab") then none else some (String.length s))
      (fun n => toString n) ("1") ("start") false ["x"] ["y"] ("ab")
      (by decide) SearchStats.new⟩

/-- C2: postcondition of `search_batch`.  When the invocation returns a
pair, the address is exactly the derivation of the seed (the
create-with-seed call closed over the base public key and the token
program id), its text rendering satisfies the pattern matcher, and the
found flag of the resulting statistics is set; when it returns nothing,
either the found flag was already set on entry, or no candidate of the
scanned batch satisfied the matcher. -/
theorem search_batch_post {α : Type} (d : String → Option α) (t : α → String)
    (pat pos : String) (ci : Bool) (seeds : List String)
    (stats : SearchStats) :
    (∀ sa : String × α,
        (search_batch d t pat pos ci seeds stats).1 = some sa →
          d sa.1 = some sa.2
          ∧ matches_pattern (t sa.2) pat ci pos = true
          ∧ (search_batch d t pat pos ci seeds stats).2.found = true)
    ∧ ((search_batch d t pat pos ci seeds stats).1 = none →
        stats.found = true ∨
          ∀ sa ∈ candidates d seeds, matches_pattern (t sa.2) pat ci pos = false) := by
  rcases search_batch_cases d t pat pos ci stats seeds with
    ⟨hf, heq⟩ | ⟨hf, sb, hm, heq⟩ | ⟨hf, hm, heq⟩
  · refine ⟨?_, fun _ => Or.inl hf⟩
    intro sa hsa
    rw [heq] at hsa
    exact absurd hsa (by simp)
  · constructor
    · intro sa hsa
      rw [heq] at hsa
      simp only [Option.some.injEq] at hsa
      subst hsa
      refine ⟨candidates_mem (List.mem_of_find?_eq_some hm), ?_, ?_⟩
      · have hp := List.find?_some hm
        simpa using hp
      · rw [heq]
    · intro hnone
      rw [heq] at hnone
      exact absurd hnone (by simp)
  · refine ⟨?_, fun _ => Or.inr ?_⟩
    · intro sa hsa
      rw [heq] at hsa
      exact absurd hsa (by simp)
    · intro sa hsa
      have := List.find?_eq_none.mp hm sa hsa
      simpa using this

theorem search_batch_post_witness :
    (search_batch (fun s => some (("X") ++ s)) id ("X") ("start") false
        [("ab")] SearchStats.new).1 = some (("ab"), ("Xab"))
    ∧ ((fun s => some (("X") ++ s)) ("ab") = some ("Xab")
        ∧ matches_pattern (id ("Xab")) ("X") false ("start") = true
        ∧ (search_batch (fun s => some (("X") ++ s)) id ("X") ("start") false
            [("ab")] SearchStats.new).2.found = true) :=
  ⟨by decide,
    (search_batch_post (fun s => some (("X") ++ s)) id ("X") ("start") false
      [("ab")] SearchStats.new).1 (("ab"), ("Xab")) (by decide)⟩

/-- C3: first-match determinism within a batch.  When an invocation with a
clear found flag returns a pair, that pair is the earliest-generated
candidate of the batch — in the sequential generation order of the seeds
list, with candidates whose derivation failed already skipped — whose
derived address satisfies the pattern matcher: the candidate list splits
around the returned pair and every candidate before it fails the
matcher. -/
theorem search_batch_first_match {α : Type} (d : String → Option α)
    (t : α → String) (pat pos : String) (ci : Bool)
    (seeds : List String) (stats : SearchStats) (sa : String × α)
    (h : stats.found = false)
    (hr : (search_batch d t pat pos ci seeds stats).1 = some sa) :
    matches_pattern (t sa.2) pat ci pos = true
    ∧ ∃ l1 l2, candidates d seeds = l1 ++ sa :: l2
        ∧ ∀ sb ∈ l1, matches_pattern (t sb.2) pat ci pos = false := by
  have hm : (candidates d seeds).find?
      (fun sb => matches_pattern (t sb.2) pat ci pos) = some sa := by
    cases hm2 : (candidates d seeds).find?
        (fun sb => matches_pattern (t sb.2) pat ci pos) with
    | some sb =>
      rw [search_batch_some_of_match d t pat pos ci h hm2] at hr
      simp only [Option.some.injEq] at hr
      rw [hr]
    | none =>
      rw [search_batch_none_of_no_match d t pat pos ci h hm2] at hr
      exact absurd hr (by simp)
  obtain ⟨hp, l1, l2, hsplit, hbefore⟩ := List.find?_eq_some.mp hm
  refine ⟨by simpa using hp, l1, l2, hsplit, ?_⟩
  intro sb hsb
  have := hbefore sb hsb
  simpa using this

theorem search_batch_first_match_witness :
    SearchStats.new.found = false
    ∧ (search_batch (fun s => some (("X") ++ s)) id ("Xa") ("start") false
        [("zz"), ("ab")] SearchStats.new).1 = some (("ab"), ("Xab"))
    ∧ (matches_pattern (id (("ab"), ("Xab")).2) ("Xa") false ("start") = true
        ∧ ∃ l1 l2,
            candidates (fun s => some (("X") ++ s)) [("zz"), ("ab")] =
              l1 ++ (("ab"), ("Xab")) :: l2
            ∧ ∀ sb ∈ l1, matches_pattern (id sb.2) ("Xa") false ("start") = false) :=
  ⟨rfl, by decide,
    search_batch_first_match (fun s => some (("X") ++ s)) id ("Xa") ("start")
      false [("zz"), ("ab")] SearchStats.new (("ab"), ("Xab")) rfl (by decide)⟩

/-- C1: at-most-one winner.  For one statistics block, modelling the
sequential way the coordinator of the program issues backend invocations:
starting from a block with a clear found flag, across any number of
`search_batch` invocations at most one pair is ever reported; the found
flag is monotone (it transitions from false to true at most once and never
back); and once found is set, every subsequent invocation returns
nothing. -/
theorem at_most_one_winner {α : Type} (d : String → Option α)
    (t : α → String) (pat pos : String) (ci : Bool)
    (bs : List (List String)) (stats : SearchStats)
    (h : stats.found = false) :
    ((run_batches d t pat pos ci bs stats).1.countP (fun r => r.isSome) ≤ 1)
    ∧ (∀ (stats2 : SearchStats), stats2.found = true →
        ∀ bs2 : List (List String),
          run_batches d t pat pos ci bs2 stats2 =
            (List.replicate bs2.length none, stats2))
    ∧ (∀ (stats2 : SearchStats), stats2.found = true →
        ∀ bs2 : List (List String),
          (run_batches d t pat pos ci bs2 stats2).2.found = true) :=
  ⟨run_batches_countP d t pat pos ci h bs,
    fun _ h2 bs2 => run_batches_of_found d t pat pos ci h2 bs2,
    fun _ h2 bs2 => run_batches_found_mono d t pat pos ci h2 bs2⟩

theorem at_most_one_winner_witness :
    SearchStats.new.found = false
    ∧ ((run_batches (fun s => some (("X") ++ s)) id ("X") ("start") false
        [[("ab")], [("cd")]] SearchStats.new).1.countP (fun r => r.isSome) ≤ 1) :=
  ⟨rfl,
    (at_most_one_winner (fun s => some (("X") ++ s)) id ("X") ("start") false
      [[("ab")], [("cd")]] SearchStats.new rfl).1⟩

/-- C6 counterexample: the claim fails on the code because the attempt
counter of the source is a wrapping 64-bit fetch-add: after
18446744073710 completed batches of size 1,000,000 with no match, the
counter has wrapped to 448384 instead of equalling k times the batch
size, and it has decreased relative to the batch before — refuting both
the exact-value and the only-increases parts of the claim. -/
theorem batch_attempt_counting_cex :
    (run_batches (fun s => some (("X") ++ s)) id ("Y") ("start") false
        (List.replicate 18446744073710 [("zz")]) SearchStats.new).2.attempts ≠
      18446744073710 * BATCH_SIZE
    ∧ (run_batches (fun s => some (("X") ++ s)) id ("Y") ("start") false
        (List.replicate 18446744073710 [("zz")]) SearchStats.new).2.attempts <
      (run_batches (fun s => some (("X") ++ s)) id ("Y") ("start") false
        (List.replicate 18446744073709 [("zz")]) SearchStats.new).2.attempts := by
  have hnm : ∀ n : Nat, ∀ b ∈ List.replicate n [("zz")],
      ∀ sa ∈ candidates (fun s => some (("X") ++ s)) b,
        matches_pattern (id sa.2) ("Y") false ("start") = false := by
    intro n b hb
    rw [List.eq_of_mem_replicate hb]
    decide
  have hz : SearchStats.new.attempts < U64_MOD := by
    norm_num [SearchStats.new, U64_MOD]
  have h1 := @run_batches_attempts_no_match String
    (fun s => some (("X") ++ s)) id ("Y") ("start") false
    (List.replicate 18446744073710 [("zz")]) (hnm 18446744073710)
    SearchStats.new rfl hz
  have h2 := @run_batches_attempts_no_match String
    (fun s => some (("X") ++ s)) id ("Y") ("start") false
    (List.replicate 18446744073709 [("zz")]) (hnm 18446744073709)
    SearchStats.new rfl hz
  constructor
  · rw [h1, List.length_replicate]
    decide
  · rw [h1, h2]
    rw [List.length_replicate, List.length_replicate]
    decide

/-- C6 (amended): batch-granular attempt counting, with the 64-bit
wrap-around of the source counter made explicit.  The batch size constant
is one million; every invocation that does not take the fast-path exit
performs exactly one wrapping 64-bit add of the batch size to the attempt
counter, regardless of parallel fan-out; the counter never decreases as
long as no wrap occurs; and after k completed batches with no match,
starting from a fresh block, the counter equals k times the batch size
reduced modulo 2 to the 64 — hence exactly k times the batch size
whenever that product is below 2 to the 64. -/
theorem batch_attempt_counting {α : Type} (d : String → Option α)
    (t : α → String) (pat pos : String) (ci : Bool)
    (seeds : List String) (stats : SearchStats) (h : stats.found = false)
    (bs : List (List String))
    (hnm : ∀ b ∈ bs, ∀ sa ∈ candidates d b,
      matches_pattern (t sa.2) pat ci pos = false) :
    BATCH_SIZE = 1000000
    ∧ (search_batch d t pat pos ci seeds stats).2.attempts =
        (stats.attempts + BATCH_SIZE) % U64_MOD
    ∧ (∀ (stats2 : SearchStats) (seeds2 : List String),
        stats2.attempts + BATCH_SIZE < U64_MOD →
          stats2.attempts ≤ (search_batch d t pat pos ci seeds2 stats2).2.attempts)
    ∧ (run_batches d t pat pos ci bs SearchStats.new).2.attempts =
        (bs.length * BATCH_SIZE) % U64_MOD
    ∧ (bs.length * BATCH_SIZE < U64_MOD →
        (run_batches d t pat pos ci bs SearchStats.new).2.attempts =
          bs.length * BATCH_SIZE) := by
  have hz : SearchStats.new.attempts < U64_MOD := by
    norm_num [SearchStats.new, U64_MOD]
  have h4 : (run_batches d t pat pos ci bs SearchStats.new).2.attempts =
      (bs.length * BATCH_SIZE) % U64_MOD := by
    rw [@run_batches_attempts_no_match α d t pat pos ci bs hnm
      SearchStats.new rfl hz]
    simp [SearchStats.new]
  exact ⟨rfl, search_batch_attempts_of_not_found d t pat pos ci h seeds,
    fun stats2 seeds2 hw =>
      search_batch_attempts_mono d t pat pos ci stats2 seeds2 hw,
    h4, fun hlt => by rw [h4, Nat.mod_eq_of_lt hlt]⟩

theorem batch_attempt_counting_witness :
    SearchStats.new.found = false
    ∧ (∀ b ∈ [[("zz")]], ∀ sa ∈ candidates (fun s => some (("X") ++ s)) b,
        matches_pattern (id sa.2) ("Y") false ("start") = false)
    ∧ (run_batches (fun s => some (("X") ++ s)) id ("Y") ("start") false
        [[("zz")]] SearchStats.new).2.attempts =
      (List.length [[("zz")]] * BATCH_SIZE) % U64_MOD :=
  ⟨rfl, by decide,
    (batch_attempt_counting (fun s => some (("X") ++ s)) id ("Y") ("start")
      false [("ab")] SearchStats.new rfl [[("zz")]] (by decide)).2.2.2.1⟩

/-- C10 counterexample: the always-an-exact-multiple part of the claim
fails on the code because the attempt counter of the source is a wrapping
64-bit fetch-add: after 18446744073710 completed batches with no match,
the counter holds the wrapped value 448384, which is not a multiple of
the batch size 1,000,000. -/
theorem attempts_counted_before_scan_cex :
    ¬ ∃ k, (search_loop (fun s => some (("X") ++ s)) id ("Y") ("start") false
        (List.replicate 18446744073710 [("zz")]) SearchStats.new).2.attempts =
      k * BATCH_SIZE := by
  have hnm : ∀ b ∈ List.replicate 18446744073710 [("zz")],
      ∀ sa ∈ candidates (fun s => some (("X") ++ s)) b,
        matches_pattern (id sa.2) ("Y") false ("start") = false := by
    intro b hb
    rw [List.eq_of_mem_replicate hb]
    decide
  have hz : SearchStats.new.attempts < U64_MOD := by
    norm_num [SearchStats.new, U64_MOD]
  have h1 := @search_loop_attempts_no_match String
    (fun s => some (("X") ++ s)) id ("Y") ("start") false
    (List.replicate 18446744073710 [("zz")]) hnm SearchStats.new rfl hz
  rw [h1, List.length_replicate]
  rintro ⟨k, hk⟩
  have hv : (SearchStats.new.attempts + 18446744073710 * BATCH_SIZE) % U64_MOD
      = 448384 := by decide
  have hk2 : 448384 = k * 1000000 := by
    rw [← hv]
    exact hk
  omega

/-- C10 (amended): the wrapping 64-bit add of the full batch size happens
before the match scan begins, so an invocation that returns a winning
pair has already counted every candidate of the winning batch, including
those generated after the winner; consequently the counter — and hence
the attempts value the coordinator reports at the end of a run — always
equals k times the batch size reduced modulo 2 to the 64 for some number
k of completed batches, and is an exact multiple of the batch size
whenever that product stays below 2 to the 64. -/
theorem attempts_counted_before_scan {α : Type} (d : String → Option α)
    (t : α → String) (pat pos : String) (ci : Bool)
    (seeds : List String) (stats : SearchStats) (sa : String × α)
    (hr : (search_batch d t pat pos ci seeds stats).1 = some sa)
    (bs : List (List String)) :
    (search_batch d t pat pos ci seeds stats).2.attempts =
      (stats.attempts + BATCH_SIZE) % U64_MOD
    ∧ (∃ k, (search_loop d t pat pos ci bs SearchStats.new).2.attempts =
        (k * BATCH_SIZE) % U64_MOD
        ∧ (k * BATCH_SIZE < U64_MOD →
          (search_loop d t pat pos ci bs SearchStats.new).2.attempts =
            k * BATCH_SIZE))
    ∧ (∃ k, (run_batches d t pat pos ci bs SearchStats.new).2.attempts =
        (k * BATCH_SIZE) % U64_MOD
        ∧ (k * BATCH_SIZE < U64_MOD →
          (run_batches d t pat pos ci bs SearchStats.new).2.attempts =
            k * BATCH_SIZE)) := by
  have hf : stats.found = false := by
    cases hf2 : stats.found with
    | true =>
      rw [search_batch_of_found d t pat pos ci hf2 seeds] at hr
      simp at hr
    | false => rfl
  have hz : SearchStats.new.attempts < U64_MOD := by
    norm_num [SearchStats.new, U64_MOD]
  refine ⟨search_batch_attempts_of_not_found d t pat pos ci hf seeds, ?_, ?_⟩
  · obtain ⟨k, hk⟩ := search_loop_attempts_multiple d t pat pos ci
      SearchStats.new bs hz
    have hk2 : (search_loop d t pat pos ci bs SearchStats.new).2.attempts =
        (k * BATCH_SIZE) % U64_MOD := by
      simpa [SearchStats.new] using hk
    exact ⟨k, hk2, fun hlt => by rw [hk2, Nat.mod_eq_of_lt hlt]⟩
  · obtain ⟨k, hk⟩ := run_batches_attempts_multiple d t pat pos ci
      SearchStats.new bs hz
    have hk2 : (run_batches d t pat pos ci bs SearchStats.new).2.attempts =
        (k * BATCH_SIZE) % U64_MOD := by
      simpa [SearchStats.new] using hk
    exact ⟨k, hk2, fun hlt => by rw [hk2, Nat.mod_eq_of_lt hlt]⟩

theorem attempts_counted_before_scan_witness :
    (search_batch (fun s => some (("X") ++ s)) id ("X") ("start") false
        [("ab")] SearchStats.new).1 = some (("ab"), ("Xab"))
    ∧ (search_batch (fun s => some (("X") ++ s)) id ("X") ("start") false
        [("ab")] SearchStats.new).2.attempts =
      (SearchStats.new.attempts + BATCH_SIZE) % U64_MOD :=
  ⟨by decide,
    (attempts_counted_before_scan (fun s => some (("X") ++ s)) id ("X")
      ("start") false [("ab")] SearchStats.new (("ab"), ("Xab"))
      (by decide) []).1⟩


/-- C8 counterexample: the claim that the JSON keys of the emitted block
are exactly the spec-named fields basePublicKey, seed, derivedAddress,
elapsedSeconds, attempts fails on the code: the emitted key list differs
from the spec-named key list, and at a concrete instance none of the names
basePublicKey, derivedAddress, elapsedSeconds occurs anywhere in the
emitted block. -/
theorem result_block_keys_not_spec_named :
    result_keys ≠ spec_result_keys
    ∧ ((result_block ("b") ("s") ("a") ("0.1") ("7")).all
        (fun line => decide (¬ (("basePublicKey").data <:+: line.data)))) = true
    ∧ ((result_block ("b") ("s") ("a") ("0.1") ("7")).all
        (fun line => decide (¬ (("derivedAddress").data <:+: line.data)))) = true
    ∧ ((result_block ("b") ("s") ("a") ("0.1") ("7")).all
        (fun line => decide (¬ (("elapsedSeconds").data <:+: line.data)))) = true := by
  decide

/-- C8 (amended): when a match is found the program emits a block
delimited by the literal marker lines RESULT_START and RESULT_END,
containing JSON whose keys are exactly base_pubkey, seed, token_address,
time_taken and attempts — the literal snake-case counterparts of the
spec-named base public key, seed, derived address, elapsed seconds and
attempts fields — in exactly this order, one field per line. -/
theorem result_block_format (b s a tt att : String) :
    (result_block b s a tt att).head? = some ("RESULT_START")
    ∧ (result_block b s a tt att).getLast? = some ("RESULT_END")
    ∧ (result_block b s a tt att).length = 9
    ∧ result_keys.length = 5
    ∧ starts_with ((result_block b s a tt att).getD 2 (""))
        ("  \"" ++ result_keys.getD 0 ("") ++ "\":") = true
    ∧ starts_with ((result_block b s a tt att).getD 3 (""))
        ("  \"" ++ result_keys.getD 1 ("") ++ "\":") = true
    ∧ starts_with ((result_block b s a tt att).getD 4 (""))
        ("  \"" ++ result_keys.getD 2 ("") ++ "\":") = true
    ∧ starts_with ((result_block b s a tt att).getD 5 (""))
        ("  \"" ++ result_keys.getD 3 ("") ++ "\":") = true
    ∧ starts_with ((result_block b s a tt att).getD 6 (""))
        ("  \"" ++ result_keys.getD 4 ("") ++ "\":") = true := by
  refine ⟨rfl, rfl, rfl, rfl, ?_, ?_, ?_, ?_, ?_⟩ <;>
    simp only [result_block, result_keys, List.getD_cons_succ,
      List.getD_cons_zero]
  · exact starts_with_append _ _ _ (starts_with_append _ _ _ (by decide))
  · exact starts_with_append _ _ _ (starts_with_append _ _ _ (by decide))
  · exact starts_with_append _ _ _ (starts_with_append _ _ _ (by decide))
  · exact starts_with_append _ _ _ (starts_with_append _ _ _ (by decide))
  · exact starts_with_append _ _ _ (by decide)
